import Mathlib

/-!
Shallow embedding of the TChannel connection core
(`tchannel/tornado/connection.py`): the dispatch loop, the
outstanding-response table, the tombstone set, send/write/await, the
handshake, close propagation, and the Reader/Writer halves.

Python futures are modelled as a store of single-shot slots
(`futures : List (Nat × FutureState)`) addressed by a fresh handle; the
outstanding table maps message ids to handles, mirroring the Python
dict from message id to `tornado.gen.Future`.  The message factories
(`tchannel/tornado/message_factory.py`, not part of the sources under
verification) are kept parametric: every theorem quantifies over an
arbitrary `MessageFactoryImpl`, exactly as `connection.py` delegates to
them.  Events fired on the event sink and messages written to the wire
are recorded in logs inside the state so that externally visible
behaviour can be stated.
-/

namespace TChannel

/-- Message types used by `connection.py` (`Types.*` from
`tchannel/messages/types.py`; the numeric codes are irrelevant to the
connection logic, which only compares discriminants). -/
inductive MsgType where
  | INIT_REQ
  | INIT_RES
  | CALL_REQ
  | CALL_REQ_CONTINUE
  | CALL_RES
  | CALL_RES_CONTINUE
  | ERROR
  | PING_REQ
  | PING_RES
  deriving DecidableEq, Repr

/-- Flag value `FlagsType.fragment` (bit 0 of the flags byte; Modelled
from the spec: `messages/common.py` is not under the verified sources,
the spec fixes bit 0 as the fragment bit). -/
def fragmentFlag : Nat := 1

/-- In-memory message as `connection.py` sees it: every message carries
`message_type` and `id`; call messages carry `flags`; ERROR messages
carry `code`, `description`, `tracing`; INIT messages carry
`host_port`, `process_name` and `version` (an empty string models a
missing header, matching Python falsiness in `if not message.host_port`). -/
structure Message where
  message_type : MsgType
  id : Nat
  flags : Nat := 0
  code : Nat := 0
  description : String := ""
  tracing : Nat := 0
  host_port : String := ""
  process_name : String := ""
  version : Nat := 0
  deriving DecidableEq, Repr

/-- Errors used by the connection.  `network` is `NetworkError(msg)`,
`timeout` is `errors.TimeoutError()`, `fromCode` is
`TChannelError.from_code(code, description=..., id=..., tracing=...)`. -/
inductive TErr where
  | network (msg : String)
  | timeout
  | fromCode (code : Nat) (description : String) (id : Nat) (tracing : Nat)
  deriving DecidableEq, Repr

/-- State of one `tornado.gen.Future`: still running, completed with a
result (`set_result`), or failed (`set_exception`). -/
inductive FutureState where
  | running
  | result (m : Message)
  | failed (e : TErr)
  deriving DecidableEq, Repr

/-- Externally visible events: `event_emitter.fire(after_receive_error, e)`
and `log.warn('Unconsumed message ...', m)`. -/
inductive Event where
  | afterReceiveError (e : Message)
  | logUnconsumed (m : Message)
  deriving DecidableEq, Repr

/-- Internal state of a message factory (reassembly buffers keyed by
message id).  The concrete representation is irrelevant: factories are
passed in as arbitrary functions over this carrier. -/
abbrev FState := List (Nat × Message)

/-- Interface of `MessageFactory` as used by `connection.py`:
`build` feeds one incoming frame to the factory and yields the
reassembled message once complete (`None` while a fragmented chain is
still open), and `fragment` splits one outgoing message into the frames
actually written.  Both may update the factory's internal state. -/
structure MessageFactoryImpl where
  build : FState → Message → Option Message × FState
  fragment : FState → Message → List Message × FState

/-- Association-list lookup by key (first match), modelling Python dict
indexing. -/
def alook {α : Type} : List (Nat × α) → Nat → Option α
  | [], _ => none
  | (k', v) :: rest, k => if k' = k then some v else alook rest k

/-- Association-list update/insert by key, modelling Python dict
assignment. -/
def aset {α : Type} : List (Nat × α) → Nat → α → List (Nat × α)
  | [], k, v => [(k, v)]
  | (k', v') :: rest, k, v =>
      if k' = k then (k, v) :: rest else (k', v') :: aset rest k v

/-- Association-list removal of the first entry with the given key,
modelling Python `dict.pop`. -/
def adel {α : Type} : List (Nat × α) → Nat → List (Nat × α)
  | [], _ => []
  | (k', v') :: rest, k => if k' = k then rest else (k', v') :: adel rest k

/-- Membership in the tombstone set.  Modelled from the spec: the
`Cemetery` class (`tchannel/tornado/tombstone.py`) is not under the
verified sources; the spec gives `add(id, ttl)` / `contains(id)` /
`clear()`.  Time-based expiry is not modelled because no claim
exercises it; an entry is present from `add` until `clear`. -/
def tombContains (ts : List (Nat × Nat)) (k : Nat) : Bool :=
  ts.any (fun p => p.1 == k)

/-- Protocol version constant.  Modelled from the spec:
`messages/common.py` is not under the verified sources; the spec's
handshake scenario fixes version 2. -/
def PROTOCOL_VERSION : Nat := 2

/-- Maximum message id.  Modelled from the spec: `tchannel/glossary.py`
is not under the verified sources; the spec states `MAX_MESSAGE_ID` is
`2^32 - 1`. -/
def MAX_MESSAGE_ID : Nat := 2 ^ 32 - 1

/-- `Writer.next_message_id`: `self._id_sequence = (self._id_sequence + 1)
% MAX_MESSAGE_ID; return self._id_sequence`.  Takes the current
`_id_sequence` and returns the new one, which is also the returned id. -/
def nextMessageId (seq : Nat) : Nat :=
  (seq + 1) % MAX_MESSAGE_ID

/-- The value of `Writer._id_sequence` after `n` calls to
`next_message_id` on a fresh `Writer` (`_id_sequence = 0`); the id
returned by call `n` is `idSequenceAfter n`. -/
def idSequenceAfter : Nat → Nat
  | 0 => 0
  | n + 1 => nextMessageId (idSequenceAfter n)

/-- Full connection state of one `TornadoConnection` plus the id
counter of its `Writer`, the enqueue log of written messages, and the
event log.  Serialization to bytes (`frame.py`, `messages.RW`) is
outside the verified sources, so `writeLog` records the logical
messages handed to `Writer.put` in order. -/
structure ConnState where
  closed : Bool
  loopRunning : Bool
  remoteHost : String
  remoteHostPort : Nat
  remoteProcessName : String
  requestedVersion : Nat
  outstanding : List (Nat × Nat)
  futures : List (Nat × FutureState)
  nextHandle : Nat
  tombstones : List (Nat × Nat)
  messages : List Message
  writeLog : List Message
  idSequence : Nat
  reqFactory : FState
  resFactory : FState
  events : List Event
  closeCbRegistered : Bool
  closeCbCalls : Nat
  deriving DecidableEq, Repr

/-- State right after `TornadoConnection.__init__` (socket-derived
remote address elided to the default branch). -/
def initialState : ConnState where
  closed := false
  loopRunning := false
  remoteHost := "0.0.0.0"
  remoteHostPort := 0
  remoteProcessName := ""
  requestedVersion := PROTOCOL_VERSION
  outstanding := []
  futures := []
  nextHandle := 0
  tombstones := []
  messages := []
  writeLog := []
  idSequence := 0
  reqFactory := []
  resFactory := []
  events := []
  closeCbRegistered := false
  closeCbCalls := 0

/-- `TornadoConnection.CALL_REQ_TYPES = frozenset([Types.CALL_REQ,
Types.CALL_REQ_CONTINUE])` membership. -/
def isCallReqType (t : MsgType) : Bool :=
  t == .CALL_REQ || t == .CALL_REQ_CONTINUE

/-- `TornadoConnection.CALL_RES_TYPES = frozenset([Types.CALL_RES,
Types.CALL_RES_CONTINUE])` membership. -/
def isCallResType (t : MsgType) : Bool :=
  t == .CALL_RES || t == .CALL_RES_CONTINUE

/-- `Writer.put` / `Writer._enqueue`: `message.id = message.id or
self.next_message_id()` (Python `0` is falsy, so a zero id gets a fresh
one), then the encoded frame is enqueued for the drain task; the model
appends the message to `writeLog`. -/
def writerPut (st : ConnState) (m : Message) : ConnState :=
  if m.id = 0 then
    { st with
      idSequence := nextMessageId st.idSequence
      writeLog := st.writeLog ++ [{ m with id := nextMessageId st.idSequence }] }
  else
    { st with writeLog := st.writeLog ++ [m] }

/-- `TornadoConnection.write`: assign an id if zero, pick the request
factory for CALL_REQ-type messages and the response factory otherwise,
fragment, and `Writer.put` each fragment in order. -/
def writeMsg (mf : MessageFactoryImpl) (st : ConnState) (m : Message) : ConnState :=
  let i := if m.id = 0 then nextMessageId st.idSequence else m.id
  let st0 := if m.id = 0 then { st with idSequence := nextMessageId st.idSequence } else st
  let m' := { m with id := i }
  if isCallReqType m'.message_type then
    let fres := mf.fragment st0.reqFactory m'
    fres.1.foldl writerPut { st0 with reqFactory := fres.2 }
  else
    let fres := mf.fragment st0.resFactory m'
    fres.1.foldl writerPut { st0 with resFactory := fres.2 }

/-- The three `assert` failures in `TornadoConnection.send`, surfaced
to the caller as assertion-style programming errors. -/
inductive SendError where
  | handshakeNotDone
  | wrongMessageType (m : Message)
  | duplicateId (id : Nat)
  deriving DecidableEq, Repr

/-- The message id `TornadoConnection.send` ends up using:
`message.id = message.id or self.writer.next_message_id()`. -/
def effId (st : ConnState) (m : Message) : Nat :=
  if m.id = 0 then nextMessageId st.idSequence else m.id

/-- `TornadoConnection.send`: assert the handshake loop is running,
assert the message type is CALL_REQ/CALL_REQ_CONTINUE, assign an id if
zero, assert the id is not already outstanding, register a fresh
pending future under that id, write the message, and return the
future's handle. -/
def send (mf : MessageFactoryImpl) (st : ConnState) (m : Message) :
    Except SendError (ConnState × Nat) :=
  if st.loopRunning = false then .error .handshakeNotDone
  else if isCallReqType m.message_type = false then .error (.wrongMessageType m)
  else
    let i := effId st m
    let seq1 := if m.id = 0 then nextMessageId st.idSequence else st.idSequence
    if (alook st.outstanding i).isSome then .error (.duplicateId i)
    else
      let h := st.nextHandle
      let st1 := { st with
        idSequence := seq1
        futures := aset st.futures h .running
        nextHandle := h + 1
        outstanding := aset st.outstanding i h }
      .ok (writeMsg mf st1 { m with id := i }, h)

/-- Error message used by `_on_close` for a pending request. -/
def cancelMsg (id : Nat) : String :=
  "canceling outstanding request " ++ toString id

/-- The `for message_id, future in self._outstanding.iteritems()` loop
of `_on_close`: fail every outstanding future with the network error,
returning the updated future store together with the list of
`set_exception` calls made (one per table entry, in order). -/
def failAll (futs : List (Nat × FutureState)) :
    List (Nat × Nat) → List (Nat × FutureState) × List (Nat × TErr)
  | [] => (futs, [])
  | (id, h) :: rest =>
      let e := TErr.network (cancelMsg id)
      let r := failAll (aset futs h (.failed e)) rest
      (r.1, (id, e) :: r.2)

/-- `TornadoConnection._on_close`: mark closed, clear the tombstones,
fail every outstanding future with
`NetworkError("canceling outstanding request <id>")`, empty the table,
drain the inbound queue logging each residual message, and invoke the
close callback if one is registered.  Returns the new state and the
log of `set_exception` calls. -/
def onClose (st : ConnState) : ConnState × List (Nat × TErr) :=
  let fa := failAll st.futures st.outstanding
  ({ st with
      closed := true
      tombstones := []
      futures := fa.1
      outstanding := []
      events := st.events ++ st.messages.map Event.logUnconsumed
      messages := []
      closeCbCalls := st.closeCbCalls + (if st.closeCbRegistered then 1 else 0) },
   fa.2)

/-- One iteration of the dispatch loop `TornadoConnection._loop`
applied to the message just received: CALL_REQ types go to the inbound
queue; messages whose id is outstanding are either ERROR frames
(pop the slot; fail it if still running, else maybe fire
`after_receive_error` with the factory's reassembled exception) or
responses (feed the factory; keep the slot for fragmented CALL_RES
frames, pop it otherwise; complete it when the factory yields a
response and the slot still runs); tombstoned ids are dropped
silently; everything else is logged. -/
def loopStep (mf : MessageFactoryImpl) (st : ConnState) (m : Message) : ConnState :=
  if isCallReqType m.message_type then
    { st with messages := st.messages ++ [m] }
  else
    match alook st.outstanding m.id with
    | some h =>
      if m.message_type = .ERROR then
        let st1 := { st with outstanding := adel st.outstanding m.id }
        if alook st.futures h = some .running then
          { st1 with
            futures := aset st.futures h
              (.failed (.fromCode m.code m.description m.id m.tracing)) }
        else
          let bres := mf.build st.resFactory m
          let st2 := { st1 with resFactory := bres.2 }
          match bres.1 with
          | some pe => { st2 with events := st2.events ++ [.afterReceiveError pe] }
          | none => st2
      else
        let bres := mf.build st.resFactory m
        let st1 := { st with resFactory := bres.2 }
        let keep := isCallResType m.message_type && m.flags == fragmentFlag
        let st2 :=
          if keep then st1 else { st1 with outstanding := adel st1.outstanding m.id }
        match bres.1 with
        | some r =>
          if alook st2.futures h = some .running then
            { st2 with futures := aset st2.futures h (.result r) }
          else st2
        | none => st2
    | none =>
      if tombContains st.tombstones m.id then st
      else { st with events := st.events ++ [.logUnconsumed m] }

/-- `StreamConnection._request_timed_out`: if the future already
completed, do nothing; otherwise fail it with a timeout error and
tombstone the request id for the request's ttl
(`Cemetery.add(req_id, req_ttl)`). -/
def requestTimedOut (st : ConnState) (reqId reqTtl h : Nat) : ConnState :=
  if alook st.futures h = some .running then
    { st with
      futures := aset st.futures h (.failed .timeout)
      tombstones := st.tombstones ++ [(reqId, reqTtl)] }
  else st

/-- `TornadoConnection.await`: take from the inbound-call queue when
the dispatch loop is running, else read directly from the Reader
(modelled as the queue of decoded messages, wire order). -/
def awaitNext (st : ConnState) (readerQueue : List Message) : Option Message :=
  if st.loopRunning then st.messages.head? else readerQueue.head?

/-- Errors raised by `initiate_handshake` /
`_extract_handshake_headers`: `errors.InvalidMessageError(description)`,
or an incidental Python `ValueError` from `rsplit` unpacking /
`int()` on a malformed `host_port` (not an invalid-message error). -/
inductive HandshakeError where
  | invalidMessage (description : String)
  | valueError
  deriving DecidableEq, Repr

/-- Decimal digit test for `parseNat`. -/
def isDigitChar (c : Char) : Bool :=
  '0' ≤ c && c ≤ '9'

/-- Python `int(s)` on a decimal string as used for the port number
(`ValueError` becomes `none`), computed over the character list. -/
def parseNat (s : String) : Option Nat :=
  let cs := s.toList
  if cs.isEmpty then none
  else if cs.all isDigitChar then
    some (cs.foldl (fun n c => n * 10 + (c.toNat - Char.toNat '0')) 0)
  else none

/-- Python `"s".rsplit(':', 1)` restricted to the two-part case used by
`_extract_handshake_headers`: split at the last colon; `none` when the
string has no colon (where the Python tuple unpacking would raise). -/
def rsplitColon (s : String) : Option (String × String) :=
  let cs := s.toList
  if (':' : Char) ∈ cs then
    let suf := (cs.reverse.takeWhile (fun c => c ≠ ':')).reverse
    some (String.mk (cs.take (cs.length - suf.length - 1)), String.mk suf)
  else none

/-- `TornadoConnection._extract_handshake_headers`: reject a missing
(empty) `host_port` or `process_name` with an invalid-message error,
then record `remote_host`/`remote_host_port` from
`host_port.rsplit(':', 1)`, `remote_process_name`, and
`requested_version`. -/
def extractHandshakeHeaders (st : ConnState) (m : Message) :
    Except HandshakeError ConnState :=
  if m.host_port = "" then
    .error (.invalidMessage "Missing required header: host_port")
  else if m.process_name = "" then
    .error (.invalidMessage "Missing required header: process_name")
  else
    match rsplitColon m.host_port with
    | none => .error .valueError
    | some hp =>
      match parseNat hp.2 with
      | none => .error .valueError
      | some port =>
        .ok { st with
          remoteHost := hp.1
          remoteHostPort := port
          remoteProcessName := m.process_name
          requestedVersion := m.version }

/-- The `messages.InitRequestMessage(version=PROTOCOL_VERSION,
headers=headers)` sent by `initiate_handshake` (headers carrying
`host_port` and `process_name`). -/
def initRequestMessage (hostPort processName : String) : Message where
  message_type := .INIT_REQ
  id := 0
  host_port := hostPort
  process_name := processName
  version := PROTOCOL_VERSION

/-- `TornadoConnection.initiate_handshake`: put an INIT_REQ on the
Writer, take the reply off the Reader (passed in as `initRes`), fail
with an invalid-message error if it is not an INIT_RES, extract the
handshake headers, and only then start the dispatch loop
(`self._loop()` sets `_loop_running = True`).  Returns the error (if
any) together with the state either way. -/
def initiateHandshake (st : ConnState) (hostPort processName : String)
    (initRes : Message) : Option HandshakeError × ConnState :=
  let st0 := writerPut st (initRequestMessage hostPort processName)
  if initRes.message_type ≠ .INIT_RES then
    (some (.invalidMessage "Expected handshake response"), st0)
  else
    match extractHandshakeHeaders st0 initRes with
    | .error e => (some e, st0)
    | .ok st1 => (none, { st1 with loopRunning := true })

/-- Outcome of one read-a-frame attempt by `Reader._dequeue`: the
stream closed before a full frame arrived, the frame or message failed
to decode, or a message was decoded. -/
inductive ReadResult where
  | streamClosed
  | decodeFailed
  | frameOk (m : Message)
  deriving DecidableEq, Repr

/-- Abstract failure a caller of `Reader.get` could observe. -/
inductive ReaderFailure where
  | closedStream
  | decodeError
  deriving DecidableEq, Repr

/-- Observable state of the `message_future` created by
`Reader._dequeue` (and hence of the caller's `get()`): never resolved,
resolved with a message, or failed with an error. -/
inductive FutureOutcome where
  | pending
  | done (m : Message)
  | failed (e : ReaderFailure)
  deriving DecidableEq, Repr

/-- What `Reader._dequeue` does with its `message_future` for each read
outcome: on a read error `on_error` only runs `log.info(...)` and the
future is never resolved; a decode exception escapes the callback (the
IOLoop logs it) and the future is likewise never resolved; only a
decoded message resolves it. -/
def dequeueOutcome : ReadResult → FutureOutcome
  | .streamClosed => .pending
  | .decodeFailed => .pending
  | .frameOk m => .done m

/-- What `Reader.fill`'s `keep_reading` callback does with the reader
queue for each read outcome, paired with whether another fill is
spawned: on an exception it returns after logging (no enqueue, no
respawn); on a message it enqueues and respawns. -/
def fillStep : ReadResult → List Message → List Message × Bool
  | .streamClosed, q => (q, false)
  | .decodeFailed, q => (q, false)
  | .frameOk m, q => (q ++ [m], true)

/-! Helper lemmas about the association-list operations. -/

theorem alook_aset_self {α : Type} (l : List (Nat × α)) (k : Nat) (v : α) :
    alook (aset l k v) k = some v := by
  induction l with
  | nil => simp [aset, alook]
  | cons p rest ih =>
      obtain ⟨k', v'⟩ := p
      by_cases h : k' = k
      · simp [aset, alook, h]
      · simp [aset, alook, h, ih]

theorem alook_aset_ne {α : Type} (l : List (Nat × α)) (k' k : Nat) (v : α)
    (h : k' ≠ k) : alook (aset l k' v) k = alook l k := by
  induction l with
  | nil => simp [aset, alook, h]
  | cons p rest ih =>
      obtain ⟨k0, v0⟩ := p
      by_cases h0 : k0 = k'
      · subst h0
        simp [aset, alook, h]
      · by_cases h1 : k0 = k
        · simp [aset, alook, h0, h1, Ne.symm h]
        · simp [aset, alook, h0, h1, ih]

theorem alook_adel_ne {α : Type} (l : List (Nat × α)) (k' k : Nat)
    (h : k' ≠ k) : alook (adel l k') k = alook l k := by
  induction l with
  | nil => simp [adel]
  | cons p rest ih =>
      obtain ⟨k0, v0⟩ := p
      by_cases h0 : k0 = k'
      · subst h0
        simp [adel, alook, h]
      · by_cases h1 : k0 = k
        · simp [adel, alook, h0, h1, Ne.symm h]
        · simp [adel, alook, h0, h1, ih]

theorem alook_eq_none_of_not_mem {α : Type} (l : List (Nat × α)) (k : Nat)
    (h : k ∉ l.map Prod.fst) : alook l k = none := by
  induction l with
  | nil => simp [alook]
  | cons p rest ih =>
      obtain ⟨k0, v0⟩ := p
      simp only [List.map_cons, List.mem_cons, not_or] at h
      have hk : k0 ≠ k := fun he => h.1 he.symm
      simp [alook, hk, ih h.2]

theorem alook_adel_self {α : Type} (l : List (Nat × α)) (k : Nat)
    (hnd : (l.map Prod.fst).Nodup) : alook (adel l k) k = none := by
  induction l with
  | nil => simp [adel, alook]
  | cons p rest ih =>
      obtain ⟨k0, v0⟩ := p
      simp only [List.map_cons, List.nodup_cons] at hnd
      by_cases h0 : k0 = k
      · subst h0
        simpa [adel] using alook_eq_none_of_not_mem rest k0 hnd.1
      · simp [adel, alook, h0, ih hnd.2]

theorem failAll_fst_preserve (outs : List (Nat × Nat))
    (futs : List (Nat × FutureState)) (h : Nat)
    (hh : h ∉ outs.map Prod.snd) :
    alook (failAll futs outs).1 h = alook futs h := by
  induction outs generalizing futs with
  | nil => simp [failAll]
  | cons p rest ih =>
      obtain ⟨id0, h0⟩ := p
      simp only [List.map_cons, List.mem_cons, not_or] at hh
      have hne : h0 ≠ h := fun he => hh.1 he.symm
      simp only [failAll]
      rw [ih _ hh.2, alook_aset_ne _ _ _ _ hne]

theorem failAll_sets (outs : List (Nat × Nat))
    (futs : List (Nat × FutureState)) (id h : Nat)
    (hnd : (outs.map Prod.snd).Nodup) (hmem : (id, h) ∈ outs) :
    alook (failAll futs outs).1 h
      = some (.failed (.network (cancelMsg id))) := by
  induction outs generalizing futs with
  | nil => cases hmem
  | cons p rest ih =>
      obtain ⟨id0, h0⟩ := p
      simp only [List.map_cons, List.nodup_cons] at hnd
      rcases List.mem_cons.mp hmem with hhd | htl
      · obtain ⟨he1, he2⟩ := Prod.mk.injEq .. ▸ hhd
        cases he1
        cases he2
        simp only [failAll]
        rw [failAll_fst_preserve _ _ _ hnd.1, alook_aset_self]
      · simp only [failAll]
        exact ih _ hnd.2 htl

theorem failAll_log (outs : List (Nat × Nat))
    (futs : List (Nat × FutureState)) :
    (failAll futs outs).2
      = outs.map (fun p => (p.1, TErr.network (cancelMsg p.1))) := by
  induction outs generalizing futs with
  | nil => simp [failAll]
  | cons p rest ih =>
      obtain ⟨id0, h0⟩ := p
      simp [failAll, ih]

theorem countP_keys_eq_zero {α : Type} (l : List (Nat × α)) (id : Nat)
    (h : id ∉ l.map Prod.fst) :
    l.countP (fun p => p.1 == id) = 0 := by
  induction l with
  | nil => simp
  | cons p rest ih =>
      obtain ⟨k0, v0⟩ := p
      simp only [List.map_cons, List.mem_cons, not_or] at h
      have hk : (k0 == id) = false := by
        simp only [beq_eq_false_iff_ne, ne_eq]
        exact fun he => h.1 he.symm
      simp [List.countP_cons, hk, ih h.2]

theorem countP_keys_nodup {α : Type} (l : List (Nat × α)) (id : Nat) (v : α)
    (hnd : (l.map Prod.fst).Nodup) (hmem : (id, v) ∈ l) :
    l.countP (fun p => p.1 == id) = 1 := by
  induction l with
  | nil => cases hmem
  | cons p rest ih =>
      obtain ⟨k0, v0⟩ := p
      simp only [List.map_cons, List.nodup_cons] at hnd
      rcases List.mem_cons.mp hmem with hhd | htl
      · injection hhd with he1 he2
        subst he1
        rw [List.countP_cons]
        simp [countP_keys_eq_zero rest id hnd.1]
      · have hk : (k0 == id) = false := by
          simp only [beq_eq_false_iff_ne, ne_eq]
          intro he
          refine hnd.1 ?_
          rw [he]
          exact List.mem_map.mpr ⟨(id, v), htl, rfl⟩
        simp [List.countP_cons, hk, ih hnd.2 htl]

theorem foldl_writerPut (fs : List Message) (st : ConnState)
    (hfr : ∀ f ∈ fs, f.id ≠ 0) :
    fs.foldl writerPut st = { st with writeLog := st.writeLog ++ fs } := by
  induction fs generalizing st with
  | nil => simp
  | cons f rest ih =>
      have hf : f.id ≠ 0 := hfr f (List.mem_cons_self f rest)
      have hrest : ∀ g ∈ rest, g.id ≠ 0 := fun g hg => hfr g (List.mem_cons_of_mem f hg)
      simp only [List.foldl_cons]
      rw [show writerPut st f = { st with writeLog := st.writeLog ++ [f] } by
        simp [writerPut, hf]]
      rw [ih _ hrest]
      simp

/-! Concrete instances used to exercise the definitions. -/

/-- A trivial message factory: `build` yields each message back
unchanged, `fragment` emits the message as its single frame. -/
def trivFactory : MessageFactoryImpl where
  build := fun fs m => (some m, fs)
  fragment := fun fs m => ([m], fs)

/-- A bare CALL_REQ_CONTINUE fragment (fragment flag set, more frames
to follow for id 5). -/
def contFragMsg : Message where
  message_type := .CALL_REQ_CONTINUE
  id := 5
  flags := fragmentFlag

/-- Connection state with the dispatch loop running (post-handshake). -/
def dispatchingState : ConnState :=
  { initialState with loopRunning := true }

/-! Claim theorems. -/

theorem idSequenceAfter_eq (n : Nat) :
    idSequenceAfter n = n % MAX_MESSAGE_ID := by
  induction n with
  | zero => simp [idSequenceAfter]
  | succ n ih =>
      simp only [idSequenceAfter, nextMessageId, ih]
      conv_rhs => rw [Nat.add_mod]
      rw [Nat.mod_eq_of_lt (show 1 < MAX_MESSAGE_ID by norm_num [MAX_MESSAGE_ID])]

/-- C2: `Writer.next_message_id` does NOT skip zero at wrap-around.
On a fresh `Writer`, the id returned by call number `MAX_MESSAGE_ID`
(= 2^32 - 1) is `(MAX_MESSAGE_ID) % MAX_MESSAGE_ID = 0`, because the
code is a bare `(self._id_sequence + 1) % MAX_MESSAGE_ID` with no
zero-skip, contradicting the spec's "zero MUST be skipped". -/
theorem next_message_id_wraps_to_zero :
    idSequenceAfter MAX_MESSAGE_ID = 0
    ∧ MAX_MESSAGE_ID = 4294967295
    ∧ nextMessageId (MAX_MESSAGE_ID - 1) = 0 := by
  refine ⟨?_, by norm_num [MAX_MESSAGE_ID], ?_⟩
  · rw [idSequenceAfter_eq, Nat.mod_self]
  · show (MAX_MESSAGE_ID - 1 + 1) % MAX_MESSAGE_ID = 0
    rw [Nat.sub_add_cancel (by norm_num [MAX_MESSAGE_ID])]
    exact Nat.mod_self _

/-- C3 counterexample: when the underlying stream closes before a full
frame is available, `Reader._dequeue`'s `on_error` only logs; the
message future is left pending, NOT failed with a closed-stream
error, so the error never surfaces on the next `get()`. -/
theorem reader_error_not_surfaced :
    dequeueOutcome .streamClosed = .pending
    ∧ dequeueOutcome .streamClosed ≠ .failed .closedStream :=
  ⟨rfl, by decide⟩

/-- C3 (amended): if the stream closes (or a frame fails to decode)
before a full frame is available, the Reader logs the error and leaves
the pending message future unresolved — the caller of the next `get()`
never sees an error — and `fill` simply stops spawning reads; there is
no terminal failed state surfaced to callers. -/
theorem reader_error_swallowed (q : List Message) :
    dequeueOutcome .streamClosed = .pending
    ∧ dequeueOutcome .decodeFailed = .pending
    ∧ fillStep .streamClosed q = (q, false)
    ∧ fillStep .decodeFailed q = (q, false) :=
  ⟨rfl, rfl, rfl, rfl⟩

/-- C10: while the dispatch loop is not running (pre-handshake),
`await()` bypasses the inbound-call queue and returns the next message
decoded from the stream whatever its type; the result does not depend
on the outstanding table or the tombstone set. -/
theorem await_prehandshake_reads_stream (st : ConnState) (rq : List Message)
    (hlr : st.loopRunning = false) :
    awaitNext st rq = rq.head?
    ∧ ∀ out tomb msgs,
        awaitNext { st with outstanding := out, tombstones := tomb, messages := msgs } rq
          = rq.head? := by
  constructor
  · simp [awaitNext, hlr]
  · intro out tomb msgs
    simp [awaitNext, hlr]

/-- A PING_RES message used to exercise the pre-handshake await path. -/
def pingResMsg : Message where
  message_type := .PING_RES
  id := 9

/-- Witness for C10: on the initial (pre-handshake) state, `await()`
yields the next reader message even though it is a PING_RES. -/
theorem await_prehandshake_reads_stream_witness :
    initialState.loopRunning = false
    ∧ awaitNext initialState [pingResMsg] = some pingResMsg :=
  ⟨rfl, (await_prehandshake_reads_stream initialState [pingResMsg] rfl).1⟩

/-- C1 counterexample: with the dispatch loop running, processing a
bare CALL_REQ_CONTINUE fragment enqueues the raw fragment itself on
the inbound-call queue, and `await()` then yields that bare fragment —
not a complete call reassembled by the message factory. -/
theorem await_yields_raw_fragment :
    awaitNext (loopStep trivFactory dispatchingState contFragMsg) [] = some contFragMsg
    ∧ contFragMsg.message_type = .CALL_REQ_CONTINUE
    ∧ contFragMsg.flags = fragmentFlag := by
  refine ⟨?_, rfl, rfl⟩
  rfl

/-- C1 (amended): post-handshake, `await()` returns the next incoming
CALL_REQ-type message exactly as received off the wire: the dispatch
loop enqueues every CALL_REQ/CALL_REQ_CONTINUE frame individually,
performing no message-factory reassembly before delivery. -/
theorem loop_enqueues_call_req_raw (mf : MessageFactoryImpl) (st : ConnState)
    (m : Message) (rq : List Message)
    (hreq : isCallReqType m.message_type = true) :
    loopStep mf st m = { st with messages := st.messages ++ [m] }
    ∧ (st.loopRunning = true → st.messages = [] →
        awaitNext (loopStep mf st m) rq = some m) := by
  constructor
  · simp [loopStep, hreq]
  · intro h1 h2
    simp [loopStep, hreq, awaitNext, h1, h2]

/-- Witness for C1 (amended): a concrete CALL_REQ_CONTINUE frame is
enqueued raw and yielded by `await()`. -/
theorem loop_enqueues_call_req_raw_witness :
    isCallReqType contFragMsg.message_type = true
    ∧ awaitNext (loopStep trivFactory dispatchingState contFragMsg) [] = some contFragMsg :=
  ⟨rfl,
    (loop_enqueues_call_req_raw trivFactory dispatchingState contFragMsg [] rfl).2 rfl rfl⟩

/-- C9: `initiate_handshake` fails with an invalid-message error when
the reply is not an INIT_RES or is missing the `host_port` or
`process_name` header, and then the dispatch loop is never started
(the loop-running flag is unchanged); on a valid INIT_RES the peer's
host, port, process name and version are recorded and the loop starts. -/
theorem initiate_handshake_validates (st : ConnState) (hp pn : String)
    (res : Message) :
    (res.message_type ≠ .INIT_RES ∨ res.host_port = "" ∨ res.process_name = "" →
      (∃ d, (initiateHandshake st hp pn res).1 = some (.invalidMessage d))
      ∧ (initiateHandshake st hp pn res).2.loopRunning = st.loopRunning)
    ∧ (∀ host port p, res.message_type = .INIT_RES →
        rsplitColon res.host_port = some (host, port) →
        parseNat port = some p →
        res.process_name ≠ "" →
        (initiateHandshake st hp pn res).1 = none
        ∧ (initiateHandshake st hp pn res).2.loopRunning = true
        ∧ (initiateHandshake st hp pn res).2.remoteHost = host
        ∧ (initiateHandshake st hp pn res).2.remoteHostPort = p
        ∧ (initiateHandshake st hp pn res).2.remoteProcessName = res.process_name
        ∧ (initiateHandshake st hp pn res).2.requestedVersion = res.version) := by
  constructor
  · intro hbad
    by_cases hty : res.message_type = .INIT_RES
    · rcases hbad with hb | hb | hb
      · exact absurd hty hb
      · constructor
        · exact ⟨"Missing required header: host_port", by
            simp [initiateHandshake, hty, extractHandshakeHeaders, hb]⟩
        · simp [initiateHandshake, hty, extractHandshakeHeaders, hb, writerPut,
            initRequestMessage]
      · by_cases hhp : res.host_port = ""
        · constructor
          · exact ⟨"Missing required header: host_port", by
              simp [initiateHandshake, hty, extractHandshakeHeaders, hhp]⟩
          · simp [initiateHandshake, hty, extractHandshakeHeaders, hhp, writerPut,
              initRequestMessage]
        · constructor
          · exact ⟨"Missing required header: process_name", by
              simp [initiateHandshake, hty, extractHandshakeHeaders, hhp, hb]⟩
          · simp [initiateHandshake, hty, extractHandshakeHeaders, hhp, hb, writerPut,
              initRequestMessage]
    · constructor
      · exact ⟨"Expected handshake response", by simp [initiateHandshake, hty]⟩
      · simp [initiateHandshake, hty, writerPut, initRequestMessage]
  · intro host port p hty hsp htn hpn
    have hhp : res.host_port ≠ "" := by
      intro he
      rw [he] at hsp
      simp [rsplitColon] at hsp
    simp [initiateHandshake, hty, extractHandshakeHeaders, hhp, hpn, hsp, htn]

/-- The INIT_RES of the spec's handshake scenario:
`host_port = "127.0.0.1:4040"`, `process_name = "q"`, version 2. -/
def initResW : Message where
  message_type := .INIT_RES
  id := 1
  host_port := "127.0.0.1:4040"
  process_name := "q"
  version := 2

/-- Witness for C9: the concrete INIT_RES of the spec scenario records
host `"127.0.0.1"`, port 4040, process name `"q"` and starts the loop. -/
theorem initiate_handshake_validates_witness :
    rsplitColon initResW.host_port = some ("127.0.0.1", "4040")
    ∧ (initiateHandshake initialState "0.0.0.0:0" "p" initResW).1 = none
    ∧ (initiateHandshake initialState "0.0.0.0:0" "p" initResW).2.loopRunning = true
    ∧ (initiateHandshake initialState "0.0.0.0:0" "p" initResW).2.remoteHost = "127.0.0.1"
    ∧ (initiateHandshake initialState "0.0.0.0:0" "p" initResW).2.remoteHostPort = 4040 := by
  have hx := (initiate_handshake_validates initialState "0.0.0.0:0" "p" initResW).2
    "127.0.0.1" "4040" 4040 rfl (by decide) (by decide) (by decide)
  exact ⟨by decide, hx.1, hx.2.1, hx.2.2.1, hx.2.2.2.1⟩

/-- C4: `_on_close` marks the connection closed, clears the tombstone
set, fails every pending outstanding slot exactly once with a network
error whose message contains the id, empties the outstanding table,
drains the inbound queue, and fires the registered close callback
exactly once. -/
theorem on_close_fails_outstanding (st : ConnState) (id h : Nat)
    (hmem : (id, h) ∈ st.outstanding)
    (hhnd : (st.outstanding.map Prod.snd).Nodup)
    (hknd : (st.outstanding.map Prod.fst).Nodup) :
    (onClose st).1.closed = true
    ∧ (onClose st).1.tombstones = []
    ∧ (onClose st).1.outstanding = []
    ∧ (onClose st).1.messages = []
    ∧ alook (onClose st).1.futures h = some (.failed (.network (cancelMsg id)))
    ∧ (∃ pre suf, cancelMsg id = pre ++ toString id ++ suf)
    ∧ (onClose st).2.countP (fun p => p.1 == id) = 1
    ∧ (st.closeCbRegistered = true → st.closeCbCalls = 0 →
        (onClose st).1.closeCbCalls = 1) := by
  refine ⟨rfl, rfl, rfl, rfl, ?_,
    ⟨"canceling outstanding request ", "", by simp [cancelMsg]⟩, ?_, ?_⟩
  · exact failAll_sets st.outstanding st.futures id h hhnd hmem
  · rw [show (onClose st).2 = (failAll st.futures st.outstanding).2 from rfl]
    rw [failAll_log, List.countP_map]
    exact countP_keys_nodup st.outstanding id h hknd hmem
  · intro h1 h2
    simp [onClose, h1, h2]

/-- State with one pending outstanding request (id 3, future handle 0)
and a registered close callback. -/
def closeState : ConnState :=
  { initialState with
    outstanding := [(3, 0)]
    futures := [(0, .running)]
    closeCbRegistered := true }

/-- Witness for C4: closing a connection with pending request id 3
fails its slot with the network error naming id 3 and fires the close
callback exactly once. -/
theorem on_close_fails_outstanding_witness :
    (3, 0) ∈ closeState.outstanding
    ∧ alook (onClose closeState).1.futures 0
        = some (.failed (.network (cancelMsg 3)))
    ∧ (onClose closeState).2.countP (fun p => p.1 == 3) = 1
    ∧ (onClose closeState).1.closeCbCalls = 1 := by
  have hx := on_close_fails_outstanding closeState 3 0 (by decide) (by decide) (by decide)
  exact ⟨by decide, hx.2.2.2.2.1, hx.2.2.2.2.2.2.1, hx.2.2.2.2.2.2.2 rfl rfl⟩

/-- C6: in the dispatch loop, for a non-ERROR message whose id is
outstanding: a CALL_RES-type message with the fragment flag set leaves
its slot in the outstanding table; a message without the fragment flag
pops the slot and, when the slot still runs and the response factory
yields a reassembled response, completes it with that response. -/
theorem dispatch_response_slot_handling (mf : MessageFactoryImpl)
    (st : ConnState) (m : Message) (h : Nat)
    (hreq : isCallReqType m.message_type = false)
    (herr : m.message_type ≠ .ERROR)
    (hout : alook st.outstanding m.id = some h)
    (hknd : (st.outstanding.map Prod.fst).Nodup) :
    (isCallResType m.message_type = true → m.flags = fragmentFlag →
      alook (loopStep mf st m).outstanding m.id = some h)
    ∧ (m.flags ≠ fragmentFlag →
      alook (loopStep mf st m).outstanding m.id = none
      ∧ ∀ r, (mf.build st.resFactory m).1 = some r →
          alook st.futures h = some .running →
          alook (loopStep mf st m).futures h = some (.result r)) := by
  constructor
  · intro hres hfla
    simp only [loopStep, hreq, Bool.false_eq_true, if_false, hout, herr, ite_false,
      if_neg herr, hres, hfla, beq_self_eq_true, Bool.and_true, Bool.true_and]
    cases hb : (mf.build st.resFactory m).1 with
    | none => simpa using hout
    | some r =>
        by_cases hrun : alook st.futures h = some .running
        · simpa [hrun] using hout
        · simpa [hrun] using hout
  · intro hfla
    have hbe : (m.flags == fragmentFlag) = false := beq_eq_false_iff_ne.mpr hfla
    simp only [loopStep, hreq, Bool.false_eq_true, if_false, hout, if_neg herr, hbe,
      Bool.and_false, ite_false]
    constructor
    · cases hb : (mf.build st.resFactory m).1 with
      | none => simpa using alook_adel_self st.outstanding m.id hknd
      | some r =>
          by_cases hrun : alook st.futures h = some .running
          · simpa [hrun] using alook_adel_self st.outstanding m.id hknd
          · simpa [hrun] using alook_adel_self st.outstanding m.id hknd
    · intro r hb hrun
      simp [hb, hrun, alook_aset_self]

/-- C7: for an ERROR frame whose id is outstanding, the slot is popped;
if it still runs it is failed with the typed error built from the
frame's code, description, id and tracing (and no event fires); if it
already completed, `after_receive_error` fires exactly when the
response factory reassembles a protocol exception, with that value. -/
theorem dispatch_error_frame_handling (mf : MessageFactoryImpl)
    (st : ConnState) (m : Message) (h : Nat)
    (herr : m.message_type = .ERROR)
    (hout : alook st.outstanding m.id = some h)
    (hknd : (st.outstanding.map Prod.fst).Nodup) :
    alook (loopStep mf st m).outstanding m.id = none
    ∧ (alook st.futures h = some .running →
        alook (loopStep mf st m).futures h
          = some (.failed (.fromCode m.code m.description m.id m.tracing))
        ∧ (loopStep mf st m).events = st.events)
    ∧ (alook st.futures h ≠ some .running →
        (loopStep mf st m).futures = st.futures
        ∧ ((mf.build st.resFactory m).1 = none →
            (loopStep mf st m).events = st.events)
        ∧ ∀ pe, (mf.build st.resFactory m).1 = some pe →
            (loopStep mf st m).events = st.events ++ [.afterReceiveError pe]) := by
  have hnreq : isCallReqType m.message_type = false := by
    rw [herr]; rfl
  refine ⟨?_, ?_, ?_⟩
  · simp only [loopStep, hnreq, Bool.false_eq_true, if_false, hout, herr, ite_true,
      if_pos rfl]
    by_cases hrun : alook st.futures h = some .running
    · simpa [hrun] using alook_adel_self st.outstanding m.id hknd
    · cases hb : (mf.build st.resFactory m).1 with
      | none => simpa [hrun] using alook_adel_self st.outstanding m.id hknd
      | some pe => simpa [hrun] using alook_adel_self st.outstanding m.id hknd
  · intro hrun
    constructor
    · simp [loopStep, isCallReqType, hout, herr, hrun, alook_aset_self]
    · simp [loopStep, isCallReqType, hout, herr, hrun]
  · intro hrun
    refine ⟨?_, ?_, ?_⟩
    · cases hb : (mf.build st.resFactory m).1 with
      | none => simp [loopStep, isCallReqType, hout, herr, hrun, hb]
      | some pe => simp [loopStep, isCallReqType, hout, herr, hrun, hb]
    · intro hb
      simp [loopStep, isCallReqType, hout, herr, hrun, hb]
    · intro pe hb
      simp [loopStep, isCallReqType, hout, herr, hrun, hb]

/-- Connection state with one pending outstanding response (id 4,
future handle 0) and the loop running. -/
def respState : ConnState :=
  { initialState with
    loopRunning := true
    outstanding := [(4, 0)]
    futures := [(0, .running)] }

/-- Final (unfragmented) CALL_RES frame for id 4. -/
def callResMsg : Message where
  message_type := .CALL_RES
  id := 4
  flags := 0

/-- Witness for C6: a final CALL_RES for outstanding id 4 pops the
slot and completes it with the factory's response. -/
theorem dispatch_response_slot_handling_witness :
    alook respState.outstanding callResMsg.id = some 0
    ∧ alook (loopStep trivFactory respState callResMsg).outstanding callResMsg.id = none
    ∧ alook (loopStep trivFactory respState callResMsg).futures 0
        = some (.result callResMsg) := by
  have hx := (dispatch_response_slot_handling trivFactory respState callResMsg 0
    rfl (by decide) (by decide) (by decide)).2 (by decide)
  exact ⟨by decide, hx.1, hx.2 callResMsg rfl (by decide)⟩

/-- Connection state with one pending outstanding response (id 6,
future handle 0) and the loop running. -/
def errState : ConnState :=
  { initialState with
    loopRunning := true
    outstanding := [(6, 0)]
    futures := [(0, .running)] }

/-- ERROR frame for id 6 with code 4 ("busy"). -/
def errMsg : Message where
  message_type := .ERROR
  id := 6
  code := 4
  description := "busy"

/-- Witness for C7: an ERROR frame for outstanding id 6 pops the slot
and fails it with the typed error built from the frame's fields. -/
theorem dispatch_error_frame_handling_witness :
    alook (loopStep trivFactory errState errMsg).outstanding errMsg.id = none
    ∧ alook (loopStep trivFactory errState errMsg).futures 0
        = some (.failed (.fromCode errMsg.code errMsg.description errMsg.id errMsg.tracing)) := by
  have hx := dispatch_error_frame_handling trivFactory errState errMsg 0
    rfl (by decide) (by decide)
  exact ⟨hx.1, (hx.2.1 (by decide)).1⟩

/-- In the dispatch loop, a CALL_RES-type message whose future slot has
already failed never completes that slot, enqueues nothing, and fires
no event: drops of late responses are silent from the caller's view. -/
theorem loopStep_drops_late_response (mf : MessageFactoryImpl) (st2 : ConnState)
    (m : Message) (h : Nat) (e : TErr)
    (hf : alook st2.futures h = some (.failed e))
    (hres : isCallResType m.message_type = true)
    (htomb : tombContains st2.tombstones m.id = true) :
    alook (loopStep mf st2 m).futures h = some (.failed e)
    ∧ (loopStep mf st2 m).messages = st2.messages
    ∧ (loopStep mf st2 m).events = st2.events := by
  have hnreq : isCallReqType m.message_type = false := by
    revert hres
    cases m.message_type <;> simp [isCallReqType, isCallResType]
  have herr : m.message_type ≠ .ERROR := by
    revert hres
    cases m.message_type <;> simp [isCallResType]
  cases hout : alook st2.outstanding m.id with
  | none =>
      simp [loopStep, hnreq, hout, htomb, hf]
  | some h2 =>
      by_cases hfl : (m.flags == fragmentFlag) = true
      · -- fragmented CALL_RES: slot kept, futures set only if running
        cases hb : (mf.build st2.resFactory m).1 with
        | none => simp [loopStep, hnreq, hout, if_neg herr, hres, hfl, hb, hf]
        | some r =>
            by_cases hh : h2 = h
            · subst hh
              simp [loopStep, hnreq, hout, if_neg herr, hres, hfl, hb, hf]
            · by_cases hrun2 : alook st2.futures h2 = some .running
              · simp only [loopStep, hnreq, Bool.false_eq_true, if_false, hout,
                  if_neg herr, hres, hfl, Bool.true_and, if_true, hb, hrun2, ite_true]
                refine ⟨?_, by simp, by simp⟩
                rw [alook_aset_ne _ _ _ _ hh]
                exact hf
              · simp [loopStep, hnreq, hout, if_neg herr, hres, hfl, hb, hrun2, hf]
      · -- unfragmented: slot popped, futures set only if running
        cases hb : (mf.build st2.resFactory m).1 with
        | none => simp [loopStep, hnreq, hout, if_neg herr, hres, hfl, hb, hf]
        | some r =>
            by_cases hh : h2 = h
            · subst hh
              simp [loopStep, hnreq, hout, if_neg herr, hres, hfl, hb, hf]
            · by_cases hrun2 : alook st2.futures h2 = some .running
              · simp only [loopStep, hnreq, Bool.false_eq_true, if_false, hout,
                  if_neg herr, hres, hfl, Bool.true_and, if_false, hb, hrun2, ite_true,
                  ite_false]
                refine ⟨?_, by simp, by simp⟩
                rw [alook_aset_ne _ _ _ _ hh]
                exact hf
              · simp [loopStep, hnreq, hout, if_neg herr, hres, hfl, hb, hrun2, hf]

/-- C5: if the per-call ttl timeout fires while the slot still runs,
the slot is failed with a timeout error and the id is tombstoned with
that same ttl; thereafter the dispatch loop silently drops any
CALL_RES-type message bearing a tombstoned id — the caller's slot keeps
its timeout error, nothing is enqueued, no event fires; if the slot
already completed, the timeout handler changes nothing. -/
theorem timeout_tombstones_and_drops (st : ConnState) (reqId ttl h : Nat) :
    (alook st.futures h ≠ some .running → requestTimedOut st reqId ttl h = st)
    ∧ (alook st.futures h = some .running →
        alook (requestTimedOut st reqId ttl h).futures h = some (.failed .timeout)
        ∧ (reqId, ttl) ∈ (requestTimedOut st reqId ttl h).tombstones
        ∧ tombContains (requestTimedOut st reqId ttl h).tombstones reqId = true
        ∧ (requestTimedOut st reqId ttl h).outstanding = st.outstanding
        ∧ ∀ (mf : MessageFactoryImpl) (m : Message),
            isCallResType m.message_type = true →
            tombContains (requestTimedOut st reqId ttl h).tombstones m.id = true →
            alook (loopStep mf (requestTimedOut st reqId ttl h) m).futures h
              = some (.failed .timeout)
            ∧ (loopStep mf (requestTimedOut st reqId ttl h) m).messages
              = (requestTimedOut st reqId ttl h).messages
            ∧ (loopStep mf (requestTimedOut st reqId ttl h) m).events
              = (requestTimedOut st reqId ttl h).events) := by
  constructor
  · intro hnrun
    simp [requestTimedOut, hnrun]
  · intro hrun
    have hfut : alook (requestTimedOut st reqId ttl h).futures h
        = some (.failed .timeout) := by
      simp [requestTimedOut, hrun, alook_aset_self]
    refine ⟨hfut, ?_, ?_, ?_, ?_⟩
    · simp [requestTimedOut, hrun]
    · simp [requestTimedOut, hrun, tombContains]
    · simp [requestTimedOut, hrun]
    · intro mf m hres htomb
      exact loopStep_drops_late_response mf (requestTimedOut st reqId ttl h) m h
        .timeout hfut hres htomb

/-- Connection state with one pending outstanding request (id 7,
future handle 0) and the loop running, about to time out. -/
def timeoutState : ConnState :=
  { initialState with
    loopRunning := true
    outstanding := [(7, 0)]
    futures := [(0, .running)] }

/-- Late CALL_RES for the timed-out id 7. -/
def lateResMsg : Message where
  message_type := .CALL_RES
  id := 7
  flags := 0

/-- Witness for C5: the ttl timeout for request id 7 fails its slot
with a timeout error and tombstones (7, ttl 5); the late CALL_RES for
id 7 is then dropped and the slot keeps the timeout error. -/
theorem timeout_tombstones_and_drops_witness :
    alook timeoutState.futures 0 = some .running
    ∧ alook (requestTimedOut timeoutState 7 5 0).futures 0 = some (.failed .timeout)
    ∧ (7, 5) ∈ (requestTimedOut timeoutState 7 5 0).tombstones
    ∧ alook (loopStep trivFactory (requestTimedOut timeoutState 7 5 0) lateResMsg).futures 0
        = some (.failed .timeout) := by
  have hx := (timeout_tombstones_and_drops timeoutState 7 5 0).2 (by decide)
  exact ⟨by decide, hx.1, hx.2.1,
    (hx.2.2.2.2 trivFactory lateResMsg (by decide) (by decide)).1⟩

/-- `TornadoConnection.send` on the non-assertion path: the pending
slot is registered under the effective id, and then the message (with
that id) is fragmented against the request factory and written. -/
theorem send_success (mf : MessageFactoryImpl) (st : ConnState) (m : Message)
    (h1 : st.loopRunning = true) (h2 : isCallReqType m.message_type = true)
    (h3 : alook st.outstanding (effId st m) = none)
    (h4 : effId st m ≠ 0)
    (hfr : ∀ f ∈ (mf.fragment st.reqFactory { m with id := effId st m }).1, f.id ≠ 0) :
    send mf st m = .ok
      ({ st with
          idSequence := if m.id = 0 then nextMessageId st.idSequence else st.idSequence
          futures := aset st.futures st.nextHandle .running
          nextHandle := st.nextHandle + 1
          outstanding := aset st.outstanding (effId st m) st.nextHandle
          reqFactory := (mf.fragment st.reqFactory { m with id := effId st m }).2
          writeLog := st.writeLog ++ (mf.fragment st.reqFactory { m with id := effId st m }).1 },
        st.nextHandle) := by
  simp only [send, h1, Bool.true_eq_false, if_false, h2, ite_false, h3,
    Option.isSome_none, Bool.false_eq_true]
  simp only [writeMsg, h4, ite_false, if_neg h4, h2, if_true, ite_true]
  rw [foldl_writerPut _ _ hfr]

/-- C8: `send` fails as an assertion-style programming error when the
handshake has not completed, when the message type is not
CALL_REQ/CALL_REQ_CONTINUE, or when the (possibly freshly assigned) id
is already outstanding; otherwise it assigns a fresh id exactly when
the id was zero, inserts a pending slot for that id into the
outstanding table, writes the message's fragments, and returns the
slot. -/
theorem send_checks_and_registers (mf : MessageFactoryImpl) (st : ConnState)
    (m : Message) :
    (st.loopRunning = false → send mf st m = .error .handshakeNotDone)
    ∧ (st.loopRunning = true → isCallReqType m.message_type = false →
        send mf st m = .error (.wrongMessageType m))
    ∧ (st.loopRunning = true → isCallReqType m.message_type = true →
        (alook st.outstanding (effId st m)).isSome = true →
        send mf st m = .error (.duplicateId (effId st m)))
    ∧ (st.loopRunning = true → isCallReqType m.message_type = true →
        alook st.outstanding (effId st m) = none →
        effId st m ≠ 0 →
        (∀ f ∈ (mf.fragment st.reqFactory { m with id := effId st m }).1, f.id ≠ 0) →
        ∃ st2, send mf st m = .ok (st2, st.nextHandle)
          ∧ alook st2.outstanding (effId st m) = some st.nextHandle
          ∧ alook st2.futures st.nextHandle = some .running
          ∧ st2.writeLog
              = st.writeLog ++ (mf.fragment st.reqFactory { m with id := effId st m }).1
          ∧ (m.id = 0 → effId st m = nextMessageId st.idSequence)
          ∧ (m.id ≠ 0 → effId st m = m.id)) := by
  refine ⟨?_, ?_, ?_, ?_⟩
  · intro h1
    simp [send, h1]
  · intro h1 h2
    simp [send, h1, h2]
  · intro h1 h2 h3
    simp [send, h1, h2, h3]
  · intro h1 h2 h3 h4 hfr
    refine ⟨_, send_success mf st m h1 h2 h3 h4 hfr, ?_, ?_, ?_, ?_, ?_⟩
    · exact alook_aset_self st.outstanding (effId st m) st.nextHandle
    · exact alook_aset_self st.futures st.nextHandle .running
    · rfl
    · intro hz
      simp [effId, hz]
    · intro hz
      simp [effId, hz]

/-- Connection state post-handshake with nothing outstanding and the
Writer's id counter fresh. -/
def sendState : ConnState :=
  { initialState with loopRunning := true }

/-- CALL_REQ with id 0, to be assigned a fresh id by `send`. -/
def callReqMsg : Message where
  message_type := .CALL_REQ
  id := 0

/-- Witness for C8: sending a CALL_REQ with id 0 on a fresh
post-handshake connection assigns id 1, registers the pending slot
under id 1 before writing, and writes the message. -/
theorem send_checks_and_registers_witness :
    effId sendState callReqMsg = 1
    ∧ ∃ st2, send trivFactory sendState callReqMsg = .ok (st2, 0)
        ∧ alook st2.outstanding 1 = some 0
        ∧ alook st2.futures 0 = some .running
        ∧ st2.writeLog = [{ callReqMsg with id := 1 }] := by
  have hx := (send_checks_and_registers trivFactory sendState callReqMsg).2.2.2
    rfl rfl (by decide) (by decide) (by decide)
  obtain ⟨st2, hs, ho, hf, hw, _, _⟩ := hx
  exact ⟨by decide, st2, hs, ho, hf, hw⟩

end TChannel
